import Mathlib

/-!
Shallow embedding of the bobthebot maintenance-classification pipeline.

Python strings are modelled as `List Char`; Python dicts parsed from JSON as
association lists; JSON numbers as exact rationals.  `mock_logic.py`,
`ai_agent.py` and the presentation part of `bot.py` are embedded below, and the
claims of the specification are settled as theorems at the end of the file.
-/

/-- Whitespace characters recognised both by Python's strip() and by the JSON
grammar (space, tab, newline, carriage return). -/
def isWs (c : Char) : Bool := c = ' ' || c = '\t' || c = '\n' || c = '\r'

/-- Python str.strip(): drop whitespace from both ends. -/
def pyStrip (t : List Char) : List Char :=
  ((t.dropWhile isWs).reverse.dropWhile isWs).reverse

/-- Python str.lower(), character by character. -/
def pyLower (t : List Char) : List Char := t.map Char.toLower

def lbrace : Char := Char.ofNat 123

def rbrace : Char := Char.ofNat 125

def backtick : Char := Char.ofNat 96

/-- JSON values as produced by json.loads.  Numbers are modelled as exact
rationals; string escape sequences are kept verbatim (no key used by the
program contains an escape). -/
inductive JVal where
  | jnull
  | jbool (b : Bool)
  | jnum (q : ℚ)
  | jstr (s : List Char)
  | jarr (elems : List JVal)
  | jobj (fields : List (List Char × JVal))

def isJsonDigit (c : Char) : Bool := '0' ≤ c && c ≤ '9'

def digitsToNat (ds : List Char) : Nat :=
  ds.foldl (fun acc c => 10 * acc + (c.toNat - '0'.toNat)) 0

/-- Parse a maximal nonempty run of decimal digits; returns the value, the
number of digits and the remaining input. -/
def parseDigits (cs : List Char) : Option (Nat × Nat × List Char) :=
  let ds := cs.takeWhile isJsonDigit
  if ds.isEmpty then none
  else some (digitsToNat ds, ds.length, cs.drop ds.length)

/-- Exponent digits after the e/E marker; falls back to no exponent (returning
the original continuation) when the digits are missing, in which case the
stray e/E makes the enclosing parse fail, as in json.loads. -/
def parseExpDigits (orig rest : List Char) : Int × List Char :=
  let (sgn, r2) : Int × List Char :=
    match rest with
    | '+' :: r => (1, r)
    | '-' :: r => (-1, r)
    | _ => (1, rest)
  match parseDigits r2 with
  | some (e, _, r3) => (sgn * e, r3)
  | none => (0, orig)

def parseExp (cs : List Char) : Int × List Char :=
  match cs with
  | 'e' :: rest => parseExpDigits cs rest
  | 'E' :: rest => parseExpDigits cs rest
  | _ => (0, cs)

/-- JSON number: optional minus, integer digits, optional fraction and
exponent, evaluated exactly over ℚ. -/
def parseNumber (cs : List Char) : Option (ℚ × List Char) :=
  let (neg, cs1) : Bool × List Char :=
    match cs with
    | '-' :: rest => (true, rest)
    | _ => (false, cs)
  match parseDigits cs1 with
  | none => none
  | some (ip, _, cs2) =>
    let (mant, flen, cs3) : Nat × Nat × List Char :=
      match cs2 with
      | '.' :: rest =>
        match parseDigits rest with
        | some (fv, fl, r) => (ip * 10 ^ fl + fv, fl, r)
        | none => (ip, 0, cs2)
      | _ => (ip, 0, cs2)
    let (ex, cs4) := parseExp cs3
    let signedMant : Int := if neg then Int.neg (Int.ofNat mant) else Int.ofNat mant
    let q : ℚ :=
      if 0 ≤ ex then mkRat (Int.mul signedMant (Int.pow 10 ex.toNat)) (Nat.pow 10 flen)
      else mkRat signedMant (Nat.mul (Nat.pow 10 flen) (Nat.pow 10 (-ex).toNat))
    some (q, cs4)

/-- Body of a JSON string after the opening quote, up to and excluding the
closing quote.  Escape pairs are kept verbatim. -/
def parseStringBody : List Char → Option (List Char × List Char)
  | [] => none
  | c :: cs =>
    if c = '"' then some ([], cs)
    else if c = '\\' then
      match cs with
      | [] => none
      | e :: cs2 =>
        match parseStringBody cs2 with
        | some (s, r) => some (c :: e :: s, r)
        | none => none
    else
      match parseStringBody cs with
      | some (s, r) => some (c :: s, r)
      | none => none

def skipWs (t : List Char) : List Char := t.dropWhile isWs

mutual

/-- One JSON value starting at the head of the input (leading whitespace
already skipped); returns the value and the rest of the input. -/
def parseVal : Nat → List Char → Option (JVal × List Char)
  | 0, _ => none
  | _ + 1, [] => none
  | fuel + 1, c :: cs =>
    if c = lbrace then
      match skipWs cs with
      | [] => none
      | d :: ds =>
        if d = rbrace then some (.jobj [], ds)
        else
          match parseFields fuel (d :: ds) with
          | some (fs, r) => some (.jobj fs, r)
          | none => none
    else if c = '[' then
      match skipWs cs with
      | [] => none
      | d :: ds =>
        if d = ']' then some (.jarr [], ds)
        else
          match parseElems fuel (d :: ds) with
          | some (es, r) => some (.jarr es, r)
          | none => none
    else if c = '"' then
      match parseStringBody cs with
      | some (s, r) => some (.jstr s, r)
      | none => none
    else if c = 't' then
      if cs.take 3 = ['r', 'u', 'e'] then some (.jbool true, cs.drop 3) else none
    else if c = 'f' then
      if cs.take 4 = ['a', 'l', 's', 'e'] then some (.jbool false, cs.drop 4) else none
    else if c = 'n' then
      if cs.take 3 = ['u', 'l', 'l'] then some (.jnull, cs.drop 3) else none
    else if c = '-' || isJsonDigit c then
      match parseNumber (c :: cs) with
      | some (q, r) => some (.jnum q, r)
      | none => none
    else none

/-- Comma-separated array elements up to and including the closing bracket. -/
def parseElems : Nat → List Char → Option (List JVal × List Char)
  | 0, _ => none
  | fuel + 1, cs =>
    match parseVal fuel cs with
    | none => none
    | some (v, r) =>
      match skipWs r with
      | ',' :: r2 =>
        match parseElems fuel (skipWs r2) with
        | some (es, r3) => some (v :: es, r3)
        | none => none
      | ']' :: r2 => some ([v], r2)
      | _ => none

/-- Comma-separated key/value pairs up to and including the closing brace. -/
def parseFields : Nat → List Char → Option (List (List Char × JVal) × List Char)
  | 0, _ => none
  | fuel + 1, cs =>
    match cs with
    | '"' :: cs1 =>
      match parseStringBody cs1 with
      | none => none
      | some (k, r) =>
        match skipWs r with
        | ':' :: r2 =>
          match parseVal fuel (skipWs r2) with
          | none => none
          | some (v, r3) =>
            match skipWs r3 with
            | ',' :: r4 =>
              match parseFields fuel (skipWs r4) with
              | some (fs, r5) => some ((k, v) :: fs, r5)
              | none => none
            | d :: r4 => if d = rbrace then some ([(k, v)], r4) else none
            | [] => none
        | _ => none
    | _ => none

end

/-- json.loads: strip surrounding whitespace, parse exactly one value
consuming the whole input; `none` models a raised JSONDecodeError. -/
def jsonLoads (t : List Char) : Option JVal :=
  match parseVal (2 * (pyStrip t).length + 2) (pyStrip t) with
  | some (v, r) => if r = [] then some v else none
  | none => none

def fence : List Char := [backtick, backtick, backtick]

def fenceJson : List Char := fence ++ ['j', 's', 'o', 'n']

def startsWithL (pat s : List Char) : Bool := decide (s.take pat.length = pat)

def endsWithL (pat s : List Char) : Bool := decide (s.drop (s.length - pat.length) = pat)

/-- The response cleaning in ai_agent.call_gemini, lines 160-170: strip, peel a
leading code-fence marker (with or without json tag), peel a trailing marker,
strip again. -/
def cleanResponse (t : List Char) : List Char :=
  let r0 := pyStrip t
  let r1 := if startsWithL fenceJson r0 then r0.drop 7 else r0
  let r2 := if startsWithL fence r1 then r1.drop 3 else r1
  let r3 := if endsWithL fence r2 then r2.take (r2.length - 3) else r2
  pyStrip r3

/-- A vendors.json entry, `\x7bcategory, name\x7d`. -/
structure VendorEntry where
  category : List Char
  name : List Char

/-- The vendors.json file: absent on disk (FileNotFoundError) or present with
its parsed entries. -/
inductive VendorSource where
  | absent
  | present (entries : List VendorEntry)

/-- The final analysis record returned to bot.py.  `none` in an Option field
models the corresponding dict key being absent. -/
structure Decision where
  issue_type : JVal
  priority : JVal
  estimated_cost : JVal
  status : List Char
  vendor : Option (List Char)
  needs_clarification : Option JVal
  clarification_question : Option JVal

namespace mock_logic

/-- mock_logic.load_vendors: a missing vendors.json (FileNotFoundError) is
caught and yields the empty list. -/
def load_vendors : VendorSource → List VendorEntry
  | .absent => []
  | .present es => es

/-- mock_logic.get_vendor_by_category: first vendor whose category matches
case-insensitively, else the sentinel. -/
def get_vendor_by_category (src : VendorSource) (category : List Char) : List Char :=
  let vendors := load_vendors src
  match vendors.find? (fun v => decide (pyLower v.category = pyLower category)) with
  | some v => v.name
  | none => "Auto-assigned vendor".toList

def plumbing_keywords : List (List Char) :=
  ["leak".toList, "water".toList, "plumbing".toList, "pipe".toList,
   "drain".toList, "toilet".toList, "sink".toList]

def ac_keywords : List (List Char) :=
  ["ac".toList, "air".toList, "cool".toList, "conditioning".toList,
   "temperature".toList, "hot".toList, "cold".toList]

def electrical_keywords : List (List Char) :=
  ["electric".toList, "power".toList, "light".toList, "socket".toList,
   "outlet".toList, "switch".toList]

/-- mock_logic.analyze_issue: keyword classification over the lower-cased
text, first match wins. -/
def analyze_issue (src : VendorSource) (text : List Char) : Decision :=
  let text_lower := pyLower text
  if plumbing_keywords.any (fun k => decide (k <:+: text_lower)) then
    ⟨.jstr "Plumbing Leak".toList, .jstr "HIGH".toList, .jnum 1500,
      "Waiting for human approval (cost > 1000 AED)".toList,
      some (get_vendor_by_category src "Plumbing".toList), none, none⟩
  else if ac_keywords.any (fun k => decide (k <:+: text_lower)) then
    ⟨.jstr "AC Maintenance".toList, .jstr "MEDIUM".toList, .jnum 600,
      "Vendor auto-assigned".toList,
      some (get_vendor_by_category src "AC".toList), none, none⟩
  else if electrical_keywords.any (fun k => decide (k <:+: text_lower)) then
    ⟨.jstr "Electrical Issue".toList, .jstr "HIGH".toList, .jnum 1200,
      "Waiting for human approval (cost > 1000 AED)".toList,
      some "Auto-assigned vendor".toList, none, none⟩
  else
    ⟨.jstr "General Maintenance".toList, .jstr "LOW".toList, .jnum 300,
      "Vendor auto-assigned".toList,
      some (get_vendor_by_category src "General".toList), none, none⟩

end mock_logic

namespace ai_agent

/-- ai_agent.load_vendors: identical degradation to the empty list when the
file is absent. -/
def load_vendors : VendorSource → List VendorEntry
  | .absent => []
  | .present es => es

/-- The category_map dict lookup with default "General"
(ai_agent.get_vendor_by_category, lines 119-127). -/
def category_map_get (c : List Char) : List Char :=
  if c = "plumbing".toList then "Plumbing".toList
  else if c = "ac".toList then "AC".toList
  else if c = "electrical".toList then "General".toList
  else if c = "general".toList then "General".toList
  else if c = "general maintenance".toList then "General".toList
  else "General".toList

/-- ai_agent.get_vendor_by_category: map the issue type through category_map,
then return the first vendor whose category matches case-insensitively. -/
def get_vendor_by_category (src : VendorSource) (category : List Char) : List Char :=
  let vendors := load_vendors src
  let vendor_category := category_map_get (pyLower category)
  match vendors.find? (fun v => decide (pyLower v.category = pyLower vendor_category)) with
  | some v => v.name
  | none => "Auto-assigned vendor".toList

/-- The fields of the fixed dict returned by call_gemini when json.loads
raises (ai_agent.py lines 182-189). -/
def fallback_fields : List (List Char × JVal) :=
  [("issue_type".toList, .jstr "General Maintenance".toList),
         ("priority".toList, .jstr "MEDIUM".toList),
         ("estimated_cost".toList, .jnum 500),
         ("reasoning".toList,
          .jstr "AI response parsing failed, using default classification".toList),
         ("needs_clarification".toList, .jbool true),
         ("clarification_question".toList,
          .jstr "Could you please provide more details about the issue?".toList)]

/-- The fixed fallback dict itself. -/
def fallback_result : JVal := .jobj fallback_fields

/-- Outcome of the external Gemini call: configuration error before the
request, a transport-level failure of the remote call, or a textual reply. -/
inductive GeminiOutcome where
  | noApiKey
  | transportError
  | reply (text : List Char)

/-- ai_agent.call_gemini as a function of the external outcome: a missing key
raises ValueError, a transport failure is re-raised (lines 190-192), a reply is
cleaned and parsed, with the fixed fallback on JSONDecodeError. -/
def call_gemini : GeminiOutcome → Except Unit JVal
  | .noApiKey => .error ()
  | .transportError => .error ()
  | .reply t =>
    match jsonLoads (cleanResponse t) with
    | some v => .ok v
    | none => .ok fallback_result

/-- Python dict.get(key, default) on a dict built from parsed JSON fields;
later duplicate keys overwrite earlier ones, hence the reversed search. -/
def dictGetD (fields : List (List Char × JVal)) (key : List Char) (dflt : JVal) : JVal :=
  match fields.reverse.find? (fun kv => decide (kv.1 = key)) with
  | some kv => kv.2
  | none => dflt

/-- Python `x > bound` for a JSON-derived value: numbers and bools compare
numerically, anything else raises TypeError. -/
def pyGtNum : JVal → ℚ → Except Unit Bool
  | .jnum q, b => .ok (decide (b < q))
  | .jbool bl, b => .ok (decide (b < (if bl then (1 : ℚ) else 0)))
  | _, _ => .error ()

/-- Python truthiness of a JSON-derived value. -/
def pyTruthy : JVal → Bool
  | .jnull => false
  | .jbool b => b
  | .jnum q => decide (q ≠ 0)
  | .jstr s => !s.isEmpty
  | .jarr es => !es.isEmpty
  | .jobj fs => !fs.isEmpty

/-- ai_agent.analyze_issue, body of the try block (lines 214-249): field
extraction with defaults, the threshold check (which raises TypeError on a
non-numeric cost), vendor resolution (which raises AttributeError when
issue_type is not a string), and assembly of the result dict.  The reasoning
field is extracted in the source but unused. -/
def analyze_core (ai_result : JVal) (src : VendorSource) : Except Unit Decision :=
  match ai_result with
  | .jobj fields =>
    let issue_type := dictGetD fields "issue_type".toList (.jstr "General Maintenance".toList)
    let priority := dictGetD fields "priority".toList (.jstr "MEDIUM".toList)
    let estimated_cost := dictGetD fields "estimated_cost".toList (.jnum 500)
    let needs_clarification := dictGetD fields "needs_clarification".toList (.jbool false)
    let clarification_question := dictGetD fields "clarification_question".toList .jnull
    match pyGtNum estimated_cost 1000 with
    | .error e => .error e
    | .ok gt =>
      let status :=
        if gt then "Waiting for human approval (cost > 1000 AED)".toList
        else if pyTruthy needs_clarification then "Vendor auto-assigned".toList
        else "Vendor auto-assigned".toList
      match issue_type with
      | .jstr ity =>
        .ok ⟨.jstr ity, priority, estimated_cost, status,
             some (get_vendor_by_category src ity),
             some needs_clarification, some clarification_question⟩
      | _ => .error ()
  | _ => .error ()

/-- The fixed dict returned by the outer exception handler of
ai_agent.analyze_issue (lines 251-260). -/
def processing_error_decision : Decision :=
  ⟨.jstr "General Maintenance".toList, .jstr "MEDIUM".toList, .jnum 500,
   "Processing error - please try again or contact support".toList,
   some "Auto-assigned vendor".toList, none, none⟩

/-- ai_agent.analyze_issue: the try/except wrapper around call_gemini and the
decision step. -/
def analyze_issue (outcome : GeminiOutcome) (src : VendorSource) : Decision :=
  match call_gemini outcome with
  | .error _ => processing_error_decision
  | .ok r =>
    match analyze_core r src with
    | .ok d => d
    | .error _ => processing_error_decision

end ai_agent

namespace bot

mutual

/-- Python repr() of a JSON-derived value, used when containers are
interpolated into an f-string (string escaping inside repr is not modelled). -/
def pyReprJ : JVal → List Char
  | .jnull => "None".toList
  | .jbool true => "True".toList
  | .jbool false => "False".toList
  | .jnum q => (toString q).toList
  | .jstr s => Char.ofNat 39 :: (s ++ [Char.ofNat 39])
  | .jarr es => '[' :: (pyReprList es ++ [']'])
  | .jobj fs => lbrace :: (pyReprFields fs ++ [rbrace])

def pyReprList : List JVal → List Char
  | [] => []
  | [v] => pyReprJ v
  | v :: rest => pyReprJ v ++ (',' :: ' ' :: pyReprList rest)

def pyReprFields : List (List Char × JVal) → List Char
  | [] => []
  | [(k, v)] => (Char.ofNat 39 :: (k ++ [Char.ofNat 39])) ++ (':' :: ' ' :: pyReprJ v)
  | (k, v) :: rest =>
    (Char.ofNat 39 :: (k ++ [Char.ofNat 39])) ++ (':' :: ' ' :: pyReprJ v)
      ++ (',' :: ' ' :: pyReprFields rest)

end

/-- Python str() as used by f-string interpolation: strings render as
themselves, everything else via repr. -/
def pyStrJ : JVal → List Char
  | .jstr s => s
  | v => pyReprJ v

/-- The condition under which bot.format_response appends the vendor line
(lines 93-96): the vendor key is present and truthy, and the lower-cased
status contains "auto-assigned". -/
def vendor_line_shown (d : Decision) : Bool :=
  (match d.vendor with
   | some v => !v.isEmpty
   | none => false)
  && decide ("auto-assigned".toList <:+: pyLower d.status)

/-- The unconditional part of the message built by bot.format_response. -/
def format_base (d : Decision) : List Char :=
  "🛠 **Issue Received**\n\n".toList
    ++ "**Type:** ".toList ++ pyStrJ d.issue_type ++ "\n".toList
    ++ "**Priority:** ".toList ++ pyStrJ d.priority ++ "\n".toList
    ++ "**Estimated Cost:** AED ".toList ++ pyStrJ d.estimated_cost ++ "\n\n".toList
    ++ "**Status:** ".toList ++ d.status ++ "\n".toList

/-- bot.format_response: the base message plus, conditionally, the vendor
line. -/
def format_response (d : Decision) : List Char :=
  format_base d
    ++ (if vendor_line_shown d then
          "**Vendor:** ".toList ++ (d.vendor.getD []) ++ "\n".toList
        else [])

end bot

/-- Vendor resolution as worded in the spec (section 4.3, step 2): map the
issue type case-insensitively through the fixed table, defaulting to General,
then take the first directory vendor whose category matches case-insensitively,
else the sentinel. -/
def vendor_resolution_spec (vendors : List VendorEntry) (issue_type : List Char) : List Char :=
  let table : List (List Char × List Char) :=
    [("plumbing".toList, "Plumbing".toList), ("ac".toList, "AC".toList),
     ("electrical".toList, "General".toList), ("general".toList, "General".toList),
     ("general maintenance".toList, "General".toList)]
  let cat :=
    match table.find? (fun kv => decide (pyLower issue_type = kv.1)) with
    | some kv => kv.2
    | none => "General".toList
  match vendors.find? (fun v => decide (pyLower v.category = pyLower cat)) with
  | some v => v.name
  | none => "Auto-assigned vendor".toList

lemma category_map_get_eq_table (x : List Char) :
    ai_agent.category_map_get x =
      (match ([("plumbing".toList, "Plumbing".toList), ("ac".toList, "AC".toList),
              ("electrical".toList, "General".toList), ("general".toList, "General".toList),
              ("general maintenance".toList, "General".toList)]
            : List (List Char × List Char)).find? (fun kv => decide (x = kv.1)) with
       | some kv => kv.2
       | none => "General".toList) := by
  unfold ai_agent.category_map_get
  by_cases h1 : x = "plumbing".toList
  · subst h1; rfl
  by_cases h2 : x = "ac".toList
  · subst h2; rfl
  by_cases h3 : x = "electrical".toList
  · subst h3; rfl
  by_cases h4 : x = "general".toList
  · subst h4; rfl
  by_cases h5 : x = "general maintenance".toList
  · subst h5; rfl
  rw [if_neg h1, if_neg h2, if_neg h3, if_neg h4, if_neg h5]
  simp only [List.find?, decide_eq_false h1, decide_eq_false h2, decide_eq_false h3,
    decide_eq_false h4, decide_eq_false h5]

/-- C5: for every issue_type string, ai_agent vendor resolution maps it
case-insensitively through the fixed category table (unrecognized types
defaulting to General) and returns the first case-insensitive category match
from the directory, with the sentinel when none matches; in particular an
Electrical issue is resolved against the General vendor category. -/
theorem spec2proof_C5 :
    (∀ src c, ai_agent.get_vendor_by_category src c
        = vendor_resolution_spec (ai_agent.load_vendors src) c)
    ∧ (∀ src, ai_agent.get_vendor_by_category src "Electrical".toList
        = match (ai_agent.load_vendors src).find?
              (fun v => decide (pyLower v.category = "general".toList)) with
          | some v => v.name
          | none => "Auto-assigned vendor".toList) := by
  constructor
  · intro src c
    unfold ai_agent.get_vendor_by_category vendor_resolution_spec
    rw [category_map_get_eq_table]
  · intro src
    rfl

/-- C6: an absent vendors file degrades to the empty directory in both
modules, and vendor resolution over an absent or empty source returns the
sentinel for every category, without failing. -/
theorem spec2proof_C6 :
    ai_agent.load_vendors .absent = []
    ∧ mock_logic.load_vendors .absent = []
    ∧ (∀ c, ai_agent.get_vendor_by_category .absent c = "Auto-assigned vendor".toList)
    ∧ (∀ c, ai_agent.get_vendor_by_category (.present []) c = "Auto-assigned vendor".toList)
    ∧ (∀ c, mock_logic.get_vendor_by_category .absent c = "Auto-assigned vendor".toList)
    ∧ (∀ c, mock_logic.get_vendor_by_category (.present []) c = "Auto-assigned vendor".toList) :=
  ⟨rfl, rfl, fun _ => rfl, fun _ => rfl, fun _ => rfl, fun _ => rfl⟩

/-- C3: a transport-level failure of the remote Gemini call is re-raised by
call_gemini without fabricating a result, and analyze_issue catches it and
returns the fixed processing-error decision (General Maintenance, MEDIUM, 500,
processing-error status, sentinel vendor, no clarification fields), never a
raw exception. -/
theorem spec2proof_C3 :
    ∀ src : VendorSource,
      ai_agent.call_gemini .transportError = .error ()
      ∧ ai_agent.analyze_issue .transportError src = ai_agent.processing_error_decision
      ∧ ai_agent.processing_error_decision
          = ⟨.jstr "General Maintenance".toList, .jstr "MEDIUM".toList, .jnum 500,
             "Processing error - please try again or contact support".toList,
             some "Auto-assigned vendor".toList, none, none⟩ :=
  fun _ => ⟨rfl, rfl, rfl⟩

/-- The keyword classifier as worded in the spec (section 4.1): lower-case the
input, then test the four ordered keyword sets with first match winning, a
keyword matching when it occurs as a substring anywhere in the lower-cased
text. -/
def keyword_classifier_spec (text : List Char) : List Char × List Char × ℚ :=
  let t := pyLower text
  if ∃ k ∈ ["leak".toList, "water".toList, "plumbing".toList, "pipe".toList,
            "drain".toList, "toilet".toList, "sink".toList], k <:+: t then
    ("Plumbing Leak".toList, "HIGH".toList, 1500)
  else if ∃ k ∈ ["ac".toList, "air".toList, "cool".toList, "conditioning".toList,
                 "temperature".toList, "hot".toList, "cold".toList], k <:+: t then
    ("AC Maintenance".toList, "MEDIUM".toList, 600)
  else if ∃ k ∈ ["electric".toList, "power".toList, "light".toList, "socket".toList,
                 "outlet".toList, "switch".toList], k <:+: t then
    ("Electrical Issue".toList, "HIGH".toList, 1200)
  else
    ("General Maintenance".toList, "LOW".toList, 300)

/-- C2: for every input the keyword classifier computes exactly the
lower-cased, ordered, first-match-wins substring classification of the spec;
it is a total function, hence deterministic and never failing. -/
theorem spec2proof_C2 :
    ∀ src text,
      (mock_logic.analyze_issue src text).issue_type
          = .jstr (keyword_classifier_spec text).1
      ∧ (mock_logic.analyze_issue src text).priority
          = .jstr (keyword_classifier_spec text).2.1
      ∧ (mock_logic.analyze_issue src text).estimated_cost
          = .jnum (keyword_classifier_spec text).2.2 := by
  intro src text
  have hb : ∀ L : List (List Char),
      ((L.any fun k => decide (k <:+: pyLower text)) = true) ↔ ∃ k ∈ L, k <:+: pyLower text := by
    intro L
    simp [List.any_eq_true]
  simp only [mock_logic.analyze_issue, keyword_classifier_spec,
    mock_logic.plumbing_keywords, mock_logic.ac_keywords, mock_logic.electrical_keywords]
  by_cases h1 : ∃ k ∈ ["leak".toList, "water".toList, "plumbing".toList, "pipe".toList,
      "drain".toList, "toilet".toList, "sink".toList], k <:+: pyLower text
  · rw [if_pos ((hb _).mpr h1), if_pos h1]
    exact ⟨rfl, rfl, rfl⟩
  rw [if_neg (fun hc => h1 ((hb _).mp hc)), if_neg h1]
  by_cases h2 : ∃ k ∈ ["ac".toList, "air".toList, "cool".toList, "conditioning".toList,
      "temperature".toList, "hot".toList, "cold".toList], k <:+: pyLower text
  · rw [if_pos ((hb _).mpr h2), if_pos h2]
    exact ⟨rfl, rfl, rfl⟩
  rw [if_neg (fun hc => h2 ((hb _).mp hc)), if_neg h2]
  by_cases h3 : ∃ k ∈ ["electric".toList, "power".toList, "light".toList, "socket".toList,
      "outlet".toList, "switch".toList], k <:+: pyLower text
  · rw [if_pos ((hb _).mpr h3), if_pos h3]
    exact ⟨rfl, rfl, rfl⟩
  rw [if_neg (fun hc => h3 ((hb _).mp hc)), if_neg h3]
  exact ⟨rfl, rfl, rfl⟩

instance exceptUnitBoolDecEq : DecidableEq (Except Unit Bool)
  | .error (), .error () => isTrue rfl
  | .error (), .ok _ => isFalse (by simp)
  | .ok _, .error () => isFalse (by simp)
  | .ok b1, .ok b2 =>
    if h : b1 = b2 then isTrue (by rw [h]) else isFalse (by simp [h])

/-- Structure of every successful run of the decision step: the status is the
threshold comparison of the extracted cost and nothing else, and the vendor
and clarification keys are always set. -/
lemma analyze_core_ok_struct {r : JVal} {src : VendorSource} {d : Decision}
    (h : ai_agent.analyze_core r src = .ok d) :
    (∃ gt, ai_agent.pyGtNum d.estimated_cost 1000 = .ok gt
        ∧ d.status = (if gt then "Waiting for human approval (cost > 1000 AED)".toList
                      else "Vendor auto-assigned".toList))
    ∧ (∃ v, d.vendor = some v)
    ∧ d.needs_clarification.isSome ∧ d.clarification_question.isSome := by
  cases r with
  | jnull => exact absurd h (by simp [ai_agent.analyze_core])
  | jbool b => exact absurd h (by simp [ai_agent.analyze_core])
  | jnum q => exact absurd h (by simp [ai_agent.analyze_core])
  | jstr s => exact absurd h (by simp [ai_agent.analyze_core])
  | jarr es => exact absurd h (by simp [ai_agent.analyze_core])
  | jobj fields =>
    simp only [ai_agent.analyze_core] at h
    split at h
    · exact absurd h (by simp)
    · rename_i gt heq
      split at h
      · rename_i ity heq2
        injection h with h2
        subst h2
        refine ⟨⟨gt, heq, ?_⟩, ⟨_, rfl⟩, rfl, rfl⟩
        cases gt <;> simp
      all_goals exact absurd h (by simp)

/-- The status/threshold equivalence for the try-block result of
analyze_issue, covering both the successful and the failing decision step. -/
lemma analyze_post_status_iff (r : JVal) (src : VendorSource) :
    ((match ai_agent.analyze_core r src with
      | .ok d => d
      | .error _ => ai_agent.processing_error_decision).status
        = "Waiting for human approval (cost > 1000 AED)".toList
      ↔ ai_agent.pyGtNum
          (match ai_agent.analyze_core r src with
           | .ok d => d
           | .error _ => ai_agent.processing_error_decision).estimated_cost 1000
          = .ok true) := by
  cases hc : ai_agent.analyze_core r src with
  | error e =>
    simp only [hc]
    exact iff_of_false
      (show ¬("Processing error - please try again or contact support".toList
          = "Waiting for human approval (cost > 1000 AED)".toList) by decide)
      (show ¬(ai_agent.pyGtNum (.jnum 500) 1000 = .ok true) by decide)
  | ok d =>
    simp only [hc]
    obtain ⟨⟨gt, hgt, hst⟩, _⟩ := analyze_core_ok_struct hc
    rw [hst, hgt]
    cases gt <;> decide

/-- C1: for every decision produced by the pipeline the status is the
awaiting-approval message exactly when the extracted estimated_cost compares
greater than 1000; for every successful decision step the status is literally
recomputed from estimated_cost alone (independent of any status hint in the
classifier output); and the keyword classifier's hard-coded statuses obey the
same equivalence. -/
theorem spec2proof_C1 :
    (∀ outcome src,
        ((ai_agent.analyze_issue outcome src).status
            = "Waiting for human approval (cost > 1000 AED)".toList
          ↔ ai_agent.pyGtNum (ai_agent.analyze_issue outcome src).estimated_cost 1000
              = .ok true))
    ∧ (∀ r src d, ai_agent.analyze_core r src = .ok d →
        d.status = (if ai_agent.pyGtNum d.estimated_cost 1000 = .ok true
                    then "Waiting for human approval (cost > 1000 AED)".toList
                    else "Vendor auto-assigned".toList))
    ∧ (∀ src text,
        ((mock_logic.analyze_issue src text).status
            = "Waiting for human approval (cost > 1000 AED)".toList
          ↔ ai_agent.pyGtNum (mock_logic.analyze_issue src text).estimated_cost 1000
              = .ok true)) := by
  refine ⟨?_, ?_, ?_⟩
  · intro outcome src
    cases outcome with
    | noApiKey =>
      exact iff_of_false
        (show ¬("Processing error - please try again or contact support".toList
            = "Waiting for human approval (cost > 1000 AED)".toList) by decide)
        (show ¬(ai_agent.pyGtNum (.jnum 500) 1000 = .ok true) by decide)
    | transportError =>
      exact iff_of_false
        (show ¬("Processing error - please try again or contact support".toList
            = "Waiting for human approval (cost > 1000 AED)".toList) by decide)
        (show ¬(ai_agent.pyGtNum (.jnum 500) 1000 = .ok true) by decide)
    | reply t =>
      simp only [ai_agent.analyze_issue, ai_agent.call_gemini]
      cases hj : jsonLoads (cleanResponse t) with
      | none => exact analyze_post_status_iff ai_agent.fallback_result src
      | some v => exact analyze_post_status_iff v src
  · intro r src d h
    obtain ⟨⟨gt, hgt, hst⟩, _⟩ := analyze_core_ok_struct h
    rw [hst, hgt]
    cases gt <;> decide
  · intro src text
    simp only [mock_logic.analyze_issue]
    split
    · exact iff_of_true rfl
        (show ai_agent.pyGtNum (.jnum 1500) 1000 = .ok true by decide)
    split
    · exact iff_of_false
        (show ¬("Vendor auto-assigned".toList
            = "Waiting for human approval (cost > 1000 AED)".toList) by decide)
        (show ¬(ai_agent.pyGtNum (.jnum 600) 1000 = .ok true) by decide)
    split
    · exact iff_of_true rfl
        (show ai_agent.pyGtNum (.jnum 1200) 1000 = .ok true by decide)
    exact iff_of_false
      (show ¬("Vendor auto-assigned".toList
          = "Waiting for human approval (cost > 1000 AED)".toList) by decide)
      (show ¬(ai_agent.pyGtNum (.jnum 300) 1000 = .ok true) by decide)

/-- Witness for C1 at a concrete classifier output with cost 1500. -/
theorem spec2proof_C1_witness :
    ai_agent.analyze_core (.jobj [("estimated_cost".toList, .jnum 1500)]) .absent
      = .ok ⟨.jstr "General Maintenance".toList, .jstr "MEDIUM".toList, .jnum 1500,
             "Waiting for human approval (cost > 1000 AED)".toList,
             some "Auto-assigned vendor".toList, some (.jbool false), some .jnull⟩
    ∧ (⟨.jstr "General Maintenance".toList, .jstr "MEDIUM".toList, .jnum 1500,
        "Waiting for human approval (cost > 1000 AED)".toList,
        some "Auto-assigned vendor".toList, some (.jbool false), some .jnull⟩ : Decision).status
      = (if ai_agent.pyGtNum (JVal.jnum 1500) 1000 = .ok true
         then "Waiting for human approval (cost > 1000 AED)".toList
         else "Vendor auto-assigned".toList) :=
  ⟨rfl, spec2proof_C1.2.1 (.jobj [("estimated_cost".toList, .jnum 1500)]) .absent _ rfl⟩

/-- C4: a reply whose cleaned text fails JSON parsing never raises; call_gemini
returns the fixed fallback classification (General Maintenance, MEDIUM, 500,
needs_clarification true with a generic non-empty question). -/
theorem spec2proof_C4 :
    ∀ t, jsonLoads (cleanResponse t) = none →
      ai_agent.call_gemini (.reply t) = .ok ai_agent.fallback_result
      ∧ ai_agent.fallback_result
          = .jobj [("issue_type".toList, .jstr "General Maintenance".toList),
                   ("priority".toList, .jstr "MEDIUM".toList),
                   ("estimated_cost".toList, .jnum 500),
                   ("reasoning".toList,
                    .jstr "AI response parsing failed, using default classification".toList),
                   ("needs_clarification".toList, .jbool true),
                   ("clarification_question".toList,
                    .jstr "Could you please provide more details about the issue?".toList)] := by
  intro t h
  constructor
  · simp only [ai_agent.call_gemini, h]
  · rfl

/-- Witness for C4 at a concrete non-JSON reply. -/
theorem spec2proof_C4_witness :
    jsonLoads (cleanResponse "not json".toList) = none
    ∧ ai_agent.call_gemini (.reply "not json".toList) = .ok ai_agent.fallback_result :=
  ⟨rfl, (spec2proof_C4 "not json".toList rfl).1⟩

/-- Values against which Python's order comparison with a number succeeds. -/
def comparable_num : JVal → Bool
  | .jnum _ => true
  | .jbool _ => true
  | _ => false

/-- C10: a reply that parses as a JSON object whose estimated_cost is not
order-comparable with a number (string, null, array, object) makes the
threshold check raise inside the outer handler, so analyze_issue returns the
processing-error decision, not the parse fallback and not an exception. -/
theorem spec2proof_C10 :
    ∀ t src fields,
      jsonLoads (cleanResponse t) = some (.jobj fields) →
      comparable_num (ai_agent.dictGetD fields "estimated_cost".toList (.jnum 500)) = false →
      ai_agent.analyze_issue (.reply t) src = ai_agent.processing_error_decision := by
  intro t src fields h hcmp
  have hcg : ai_agent.call_gemini (.reply t) = .ok (.jobj fields) := by
    simp only [ai_agent.call_gemini, h]
  have hgt : ai_agent.pyGtNum
      (ai_agent.dictGetD fields "estimated_cost".toList (.jnum 500)) 1000 = .error () := by
    cases hv : ai_agent.dictGetD fields "estimated_cost".toList (.jnum 500) with
    | jnum q => rw [hv] at hcmp; exact absurd hcmp (by simp [comparable_num])
    | jbool b => rw [hv] at hcmp; exact absurd hcmp (by simp [comparable_num])
    | jnull => rfl
    | jstr s => rfl
    | jarr es => rfl
    | jobj fs => rfl
  have hcore : ai_agent.analyze_core (.jobj fields) src = .error () := by
    simp only [ai_agent.analyze_core, hgt]
  simp only [ai_agent.analyze_issue, hcg, hcore]

/-- Witness for C10 at a parsed object whose estimated_cost is a string. -/
theorem spec2proof_C10_witness :
    jsonLoads (cleanResponse "\x7b\"estimated_cost\": \"high\"\x7d".toList)
      = some (.jobj [("estimated_cost".toList, .jstr "high".toList)])
    ∧ comparable_num
        (ai_agent.dictGetD [("estimated_cost".toList, .jstr "high".toList)]
          "estimated_cost".toList (.jnum 500)) = false
    ∧ ai_agent.analyze_issue (.reply "\x7b\"estimated_cost\": \"high\"\x7d".toList) .absent
      = ai_agent.processing_error_decision :=
  ⟨rfl, rfl, spec2proof_C10 _ .absent _ rfl rfl⟩

/-- The numeric payload of a JSON value, when it is a number. -/
def jnumVal : JVal → Option ℚ
  | .jnum q => some q
  | _ => none

/-- C7 counterexample: the AI classifier returns a successfully parsed reply
verbatim, so it can produce a RawClassification with a negative estimated_cost,
and one with needs_clarification true but no clarification_question. -/
theorem spec2proof_C7_counterexample :
    ∃ fs, ai_agent.call_gemini (.reply "\x7b\"estimated_cost\": -5\x7d".toList)
        = .ok (.jobj fs)
      ∧ jnumVal (ai_agent.dictGetD fs "estimated_cost".toList (.jnum 500)) = some (-5)
      ∧ ((-5 : ℚ) < 0)
      ∧ ai_agent.call_gemini (.reply "\x7b\"needs_clarification\": true\x7d".toList)
          = .ok (.jobj [("needs_clarification".toList, .jbool true)])
      ∧ ai_agent.dictGetD [("needs_clarification".toList, .jbool true)]
          "clarification_question".toList .jnull = .jnull :=
  ⟨_, rfl, by decide, by norm_num, rfl, rfl⟩

/-- C7 amended: the invariant holds for everything the code itself fixes: the
keyword classifier always produces a non-negative cost and no clarification
keys, and the AI parse-failure fallback has cost 500 with needs_clarification
true and a non-empty question; a successfully parsed AI reply is returned
without validation. -/
theorem spec2proof_C7_amended :
    (∀ src text,
        ∃ q, (mock_logic.analyze_issue src text).estimated_cost = .jnum q ∧ 0 ≤ q)
    ∧ (∀ src text, (mock_logic.analyze_issue src text).needs_clarification = none
        ∧ (mock_logic.analyze_issue src text).clarification_question = none)
    ∧ ai_agent.fallback_result = .jobj ai_agent.fallback_fields
    ∧ ai_agent.dictGetD ai_agent.fallback_fields "estimated_cost".toList (.jnum 0) = .jnum 500
    ∧ ((0 : ℚ) ≤ 500)
    ∧ ai_agent.dictGetD ai_agent.fallback_fields "needs_clarification".toList (.jbool false)
        = .jbool true
    ∧ (∃ s, ai_agent.dictGetD ai_agent.fallback_fields "clarification_question".toList .jnull
          = .jstr s ∧ s ≠ []) := by
  refine ⟨?_, ?_, rfl, rfl, by norm_num, rfl, ⟨_, rfl, by decide⟩⟩
  · intro src text
    simp only [mock_logic.analyze_issue]
    split
    · exact ⟨1500, rfl, by norm_num⟩
    split
    · exact ⟨600, rfl, by norm_num⟩
    split
    · exact ⟨1200, rfl, by norm_num⟩
    exact ⟨300, rfl, by norm_num⟩
  · intro src text
    simp only [mock_logic.analyze_issue]
    split
    · exact ⟨rfl, rfl⟩
    split
    · exact ⟨rfl, rfl⟩
    split
    · exact ⟨rfl, rfl⟩
    exact ⟨rfl, rfl⟩

/-- C9 counterexample: the keyword classifier's awaiting-approval decision for
a plumbing issue still carries the vendor key. -/
theorem spec2proof_C9_counterexample :
    (mock_logic.analyze_issue .absent "leak".toList).status
        = "Waiting for human approval (cost > 1000 AED)".toList
    ∧ (mock_logic.analyze_issue .absent "leak".toList).vendor
        = some "Auto-assigned vendor".toList :=
  ⟨rfl, rfl⟩

/-- Every decision of the AI pipeline carries a vendor value and one of the
three fixed statuses. -/
lemma ai_analyze_shape (outcome : ai_agent.GeminiOutcome) (src : VendorSource) :
    ∃ v, (ai_agent.analyze_issue outcome src).vendor = some v
      ∧ ((ai_agent.analyze_issue outcome src).status
            = "Waiting for human approval (cost > 1000 AED)".toList
        ∨ (ai_agent.analyze_issue outcome src).status = "Vendor auto-assigned".toList
        ∨ (ai_agent.analyze_issue outcome src).status
            = "Processing error - please try again or contact support".toList) := by
  cases hcg : ai_agent.call_gemini outcome with
  | error e =>
    simp only [ai_agent.analyze_issue, hcg]
    exact ⟨_, rfl, Or.inr (Or.inr rfl)⟩
  | ok r =>
    cases hc : ai_agent.analyze_core r src with
    | error e =>
      simp only [ai_agent.analyze_issue, hcg, hc]
      exact ⟨_, rfl, Or.inr (Or.inr rfl)⟩
    | ok d =>
      simp only [ai_agent.analyze_issue, hcg, hc]
      obtain ⟨⟨gt, hgt, hst⟩, ⟨v, hv⟩, _⟩ := analyze_core_ok_struct hc
      refine ⟨v, hv, ?_⟩
      rw [hst]
      cases gt
      · exact Or.inr (Or.inl rfl)
      · exact Or.inl rfl

/-- Every decision of the keyword classifier carries a vendor value and one of
the two fixed statuses. -/
lemma mock_analyze_shape (src : VendorSource) (text : List Char) :
    ∃ v, (mock_logic.analyze_issue src text).vendor = some v
      ∧ ((mock_logic.analyze_issue src text).status
            = "Waiting for human approval (cost > 1000 AED)".toList
        ∨ (mock_logic.analyze_issue src text).status = "Vendor auto-assigned".toList) := by
  simp only [mock_logic.analyze_issue]
  split
  · exact ⟨_, rfl, Or.inl rfl⟩
  split
  · exact ⟨_, rfl, Or.inr rfl⟩
  split
  · exact ⟨_, rfl, Or.inl rfl⟩
  exact ⟨_, rfl, Or.inr rfl⟩

/-- The vendor line condition of format_response, evaluated on any decision
with a present vendor key and one of the three pipeline statuses. -/
lemma shown_iff_of_shape {d : Decision} {v : List Char} (hv : d.vendor = some v)
    (hst : d.status = "Waiting for human approval (cost > 1000 AED)".toList
        ∨ d.status = "Vendor auto-assigned".toList
        ∨ d.status = "Processing error - please try again or contact support".toList) :
    (bot.vendor_line_shown d = true
      ↔ (d.status = "Vendor auto-assigned".toList ∧ d.vendor.getD [] ≠ [])) := by
  rcases hst with h | h | h
  · simp only [bot.vendor_line_shown, hv, h]
    rw [show decide ("auto-assigned".toList
        <:+: pyLower "Waiting for human approval (cost > 1000 AED)".toList) = false
      from by decide]
    exact iff_of_false (by simp) (fun hc => absurd hc.1 (by decide))
  · simp only [bot.vendor_line_shown, hv, h]
    rw [show decide ("auto-assigned".toList
        <:+: pyLower "Vendor auto-assigned".toList) = true from by decide]
    cases v with
    | nil => simp
    | cons a l => simp
  · simp only [bot.vendor_line_shown, hv, h]
    rw [show decide ("auto-assigned".toList
        <:+: pyLower "Processing error - please try again or contact support".toList) = false
      from by decide]
    exact iff_of_false (by simp) (fun hc => absurd hc.1 (by decide))

/-- C9 amended: every Decision record produced by either pipeline carries the
vendor key (even awaiting-approval and processing-error ones); it is the
presentation adapter that appends the vendor line exactly when the status is
the auto-assigned one and the vendor value is non-empty, so only auto-assigned
decisions display a vendor. -/
theorem spec2proof_C9_amended :
    (∀ outcome src, (ai_agent.analyze_issue outcome src).vendor.isSome)
    ∧ (∀ src text, (mock_logic.analyze_issue src text).vendor.isSome)
    ∧ (∀ d, bot.format_response d
        = bot.format_base d
          ++ (if bot.vendor_line_shown d then
                "**Vendor:** ".toList ++ d.vendor.getD [] ++ "\n".toList
              else []))
    ∧ (∀ outcome src,
        bot.vendor_line_shown (ai_agent.analyze_issue outcome src) = true
          ↔ ((ai_agent.analyze_issue outcome src).status = "Vendor auto-assigned".toList
              ∧ (ai_agent.analyze_issue outcome src).vendor.getD [] ≠ []))
    ∧ (∀ src text,
        bot.vendor_line_shown (mock_logic.analyze_issue src text) = true
          ↔ ((mock_logic.analyze_issue src text).status = "Vendor auto-assigned".toList
              ∧ (mock_logic.analyze_issue src text).vendor.getD [] ≠ [])) := by
  refine ⟨?_, ?_, fun d => rfl, ?_, ?_⟩
  · intro outcome src
    obtain ⟨v, hv, _⟩ := ai_analyze_shape outcome src
    simp [hv]
  · intro src text
    obtain ⟨v, hv, _⟩ := mock_analyze_shape src text
    simp [hv]
  · intro outcome src
    obtain ⟨v, hv, hst⟩ := ai_analyze_shape outcome src
    exact shown_iff_of_shape hv hst
  · intro src text
    obtain ⟨v, hv, hst⟩ := mock_analyze_shape src text
    exact shown_iff_of_shape hv (hst.elim Or.inl (fun h => Or.inr (Or.inl h)))

/-! Auxiliary facts about pyStrip, the fence markers and the parser, used to
settle the round-trip claim about the code-fence stripping. -/

lemma head?_dropWhile_isWs {l : List Char} {c : Char}
    (h : (l.dropWhile isWs).head? = some c) : isWs c = false := by
  have hm := List.head?_dropWhile_not isWs l
  rw [h] at hm
  exact hm

lemma prefix_head? {α : Type} {l₁ l₂ : List α} (h : l₁ <+: l₂) (hne : l₁ ≠ []) :
    l₂.head? = l₁.head? := by
  obtain ⟨t, rfl⟩ := h
  cases l₁ with
  | nil => exact absurd rfl hne
  | cons a l => rfl

lemma pyStrip_prefix (l : List Char) : pyStrip l <+: l.dropWhile isWs := by
  have h := List.reverse_prefix.mpr
    (List.dropWhile_suffix (l := (l.dropWhile isWs).reverse) isWs)
  rwa [List.reverse_reverse] at h

lemma pyStrip_head_not_ws {l : List Char} {c : Char}
    (h : (pyStrip l).head? = some c) : isWs c = false := by
  have hpre := pyStrip_prefix l
  have hne : pyStrip l ≠ [] := by
    intro hnil
    rw [hnil] at h
    exact Option.noConfusion h
  have hh := prefix_head? hpre hne
  rw [h] at hh
  exact head?_dropWhile_isWs hh

lemma pyStrip_getLast_not_ws {l : List Char} {c : Char}
    (h : (pyStrip l).getLast? = some c) : isWs c = false := by
  unfold pyStrip at h
  rw [List.getLast?_reverse] at h
  exact head?_dropWhile_isWs h

lemma pyStrip_eq_self {l : List Char}
    (h1 : ∀ c, l.head? = some c → isWs c = false)
    (h2 : ∀ c, l.getLast? = some c → isWs c = false) :
    pyStrip l = l := by
  unfold pyStrip
  have hL : l.dropWhile isWs = l := by
    cases l with
    | nil => rfl
    | cons a t =>
      rw [List.dropWhile_cons_of_neg]
      simp [h1 a rfl]
  rw [hL]
  have hR : l.reverse.dropWhile isWs = l.reverse := by
    cases hrev : l.reverse with
    | nil => rfl
    | cons a t =>
      have hga : l.getLast? = some a := by
        have hhr := List.head?_reverse l
        rw [hrev] at hhr
        exact hhr.symm
      rw [List.dropWhile_cons_of_neg]
      simp [h2 a hga]
  rw [hR, List.reverse_reverse]

lemma pyStrip_idem (l : List Char) : pyStrip (pyStrip l) = pyStrip l := by
  apply pyStrip_eq_self
  · intro c h
    exact pyStrip_head_not_ws h
  · intro c h
    exact pyStrip_getLast_not_ws h

lemma jsonLoads_pyStrip (l : List Char) : jsonLoads (pyStrip l) = jsonLoads l := by
  unfold jsonLoads
  rw [pyStrip_idem]

lemma parseVal_head_starts {f : Nat} {c : Char} {cs : List Char} {out : JVal × List Char}
    (h : parseVal (f + 1) (c :: cs) = some out) :
    c = lbrace ∨ c = '[' ∨ c = '"' ∨ c = 't' ∨ c = 'f' ∨ c = 'n' ∨ c = '-'
      ∨ isJsonDigit c = true := by
  by_contra hc
  push_neg at hc
  obtain ⟨h1, h2, h3, h4, h5, h6, h7, h8⟩ := hc
  simp [parseVal, h1, h2, h3, h4, h5, h6, h7, h8] at h

lemma parseVal_head_ne {f : Nat} {c : Char} {cs : List Char} {out : JVal × List Char}
    (h : parseVal (f + 1) (c :: cs) = some out) : c ≠ 'j' ∧ c ≠ backtick := by
  rcases parseVal_head_starts h with h' | h' | h' | h' | h' | h' | h' | h'
  · subst h'; exact ⟨by decide, by decide⟩
  · subst h'; exact ⟨by decide, by decide⟩
  · subst h'; exact ⟨by decide, by decide⟩
  · subst h'; exact ⟨by decide, by decide⟩
  · subst h'; exact ⟨by decide, by decide⟩
  · subst h'; exact ⟨by decide, by decide⟩
  · subst h'; exact ⟨by decide, by decide⟩
  · exact ⟨fun hq => by subst hq; exact absurd h' (by decide),
           fun hq => by subst hq; exact absurd h' (by decide)⟩

lemma jsonLoads_some_head {s : List Char} {v : JVal} (h : jsonLoads s = some v) :
    ∃ c u, pyStrip s = c :: u ∧ c ≠ 'j' ∧ c ≠ backtick ∧ isWs c = false := by
  cases hu : pyStrip s with
  | nil =>
    have hnone : jsonLoads s = none := by
      unfold jsonLoads
      rw [hu]
      rfl
    exact absurd (hnone.symm.trans h) (by simp)
  | cons c u =>
    have hstep : jsonLoads s
        = (match parseVal (2 * (c :: u).length + 2) (c :: u) with
           | some (w, r) => if r = [] then some w else none
           | none => none) := by
      unfold jsonLoads
      rw [hu]
    rw [hstep] at h
    cases hp : parseVal (2 * (c :: u).length + 2) (c :: u) with
    | none =>
      rw [hp] at h
      exact absurd h (by simp)
    | some out =>
      have hp' : parseVal ((2 * u.length + 3) + 1) (c :: u) = some out := by
        rw [show (2 * u.length + 3) + 1 = 2 * (c :: u).length + 2 from by
          simp [List.length_cons]; omega]
        exact hp
      obtain ⟨hj, hb⟩ := parseVal_head_ne hp'
      have hws : isWs c = false := by
        apply pyStrip_head_not_ws (l := s)
        rw [hu]
        rfl
      exact ⟨c, u, rfl, hj, hb, hws⟩

lemma jsonLoads_some_ne_nil {s : List Char} {v : JVal} (h : jsonLoads s = some v) :
    s ≠ [] := by
  obtain ⟨c, u, hu, _⟩ := jsonLoads_some_head h
  intro hnil
  rw [hnil] at hu
  exact absurd hu (by simp [pyStrip])

lemma jsonLoads_some_head_outer {a : Char} {s' : List Char} {v : JVal}
    (h : jsonLoads (a :: s') = some v) :
    a ≠ 'j' ∧ a ≠ backtick := by
  obtain ⟨c, u, hu, hj, hb, hws⟩ := jsonLoads_some_head h
  by_cases hw : isWs a = true
  · constructor
    · intro hq; rw [hq] at hw; exact absurd hw (by decide)
    · intro hq; rw [hq] at hw; exact absurd hw (by decide)
  · rw [Bool.not_eq_true] at hw
    have hL : (a :: s').dropWhile isWs = a :: s' :=
      List.dropWhile_cons_of_neg (by simp [hw])
    have hpre := pyStrip_prefix (a :: s')
    rw [hL] at hpre
    have hne : pyStrip (a :: s') ≠ [] := by
      rw [hu]
      simp
    have hh := prefix_head? hpre hne
    rw [hu] at hh
    simp only [List.head?_cons] at hh
    injection hh with hh
    rw [hh]
    exact ⟨hj, hb⟩

lemma startsWithL_fenceJson_append (r : List Char) :
    startsWithL fenceJson (fenceJson ++ r) = true := by
  simp [startsWithL, List.take_left]

lemma startsWithL_fence_append (r : List Char) :
    startsWithL fence (fence ++ r) = true := by
  simp [startsWithL, List.take_left]

lemma startsWithL_fence_of_cons {a : Char} (t : List Char) (hcb : a ≠ backtick) :
    startsWithL fence ((a :: t) ++ fence) = false := by
  have hred : startsWithL fence ((a :: t) ++ fence)
      = decide (a :: List.take 2 (t ++ fence) = fence) := rfl
  rw [hred]
  apply decide_eq_false
  intro heq
  injection heq with h1 _
  exact hcb h1

lemma startsWithL_fenceJson_of_cons {a : Char} (t : List Char) (hcj : a ≠ 'j') :
    startsWithL fenceJson (fence ++ ((a :: t) ++ fence)) = false := by
  have hred : startsWithL fenceJson (fence ++ ((a :: t) ++ fence))
      = decide (backtick :: backtick :: backtick :: a :: List.take 3 (t ++ fence)
          = fenceJson) := rfl
  rw [hred]
  apply decide_eq_false
  intro heq
  injection heq with _ heq
  injection heq with _ heq
  injection heq with _ heq
  injection heq with h4 _
  exact hcj h4

lemma endsWithL_append_self (s pat : List Char) : endsWithL pat (s ++ pat) = true := by
  simp [endsWithL, List.length_append, Nat.add_sub_cancel, List.drop_left]

lemma pyStrip_wrap (F : List Char) (hF : F = fence ∨ F = fenceJson) (s : List Char) :
    pyStrip (F ++ (s ++ fence)) = F ++ (s ++ fence) := by
  apply pyStrip_eq_self
  · intro c h
    rcases hF with rfl | rfl
    · rw [show (fence ++ (s ++ fence)).head? = some backtick from rfl] at h
      injection h with h
      rw [← h]
      decide
    · rw [show (fenceJson ++ (s ++ fence)).head? = some backtick from rfl] at h
      injection h with h
      rw [← h]
      decide
  · intro c h
    have hrev : (F ++ (s ++ fence)).getLast? = some backtick := by
      rw [← List.head?_reverse, List.reverse_append, List.reverse_append]
      rfl
    rw [hrev] at h
    injection h with h
    rw [← h]
    decide

/-- Wrapping a string in code-fence markers, with or without the json language
tag, as described by the spec. -/
def wrap_fence : Bool → List Char → List Char
  | true, s => fenceJson ++ (s ++ fence)
  | false, s => fence ++ (s ++ fence)

/-- On a reply that is a fence-wrapped JSON document, the cleaning step
recovers exactly the stripped document. -/
lemma cleanResponse_wrap {s : List Char} {v : JVal} (tag : Bool)
    (h : jsonLoads s = some v) :
    cleanResponse (wrap_fence tag s) = pyStrip s := by
  have hsne : s ≠ [] := jsonLoads_some_ne_nil h
  obtain ⟨c0, s', rfl⟩ : ∃ c0 s', s = c0 :: s' := by
    cases s with
    | nil => exact absurd rfl hsne
    | cons a t => exact ⟨_, _, rfl⟩
  obtain ⟨hc0j, hc0b⟩ := jsonLoads_some_head_outer h
  cases tag with
  | true =>
    simp only [cleanResponse, wrap_fence]
    rw [pyStrip_wrap fenceJson (Or.inr rfl) (c0 :: s')]
    rw [startsWithL_fenceJson_append ((c0 :: s') ++ fence), if_pos rfl]
    rw [List.drop_left' (show fenceJson.length = 7 from rfl)]
    rw [startsWithL_fence_of_cons s' hc0b, if_neg (show ¬(false = true) from by decide)]
    rw [endsWithL_append_self (c0 :: s') fence, if_pos rfl]
    rw [show ((c0 :: s') ++ fence).length - 3 = (c0 :: s').length from by simp [fence]]
    rw [List.take_left]
  | false =>
    simp only [cleanResponse, wrap_fence]
    rw [pyStrip_wrap fence (Or.inl rfl) (c0 :: s')]
    rw [startsWithL_fenceJson_of_cons s' hc0j, if_neg (show ¬(false = true) from by decide)]
    rw [startsWithL_fence_append ((c0 :: s') ++ fence), if_pos rfl]
    rw [List.drop_left' (show fence.length = 3 from rfl)]
    rw [endsWithL_append_self (c0 :: s') fence, if_pos rfl]
    rw [show ((c0 :: s') ++ fence).length - 3 = (c0 :: s').length from by simp [fence]]
    rw [List.take_left]

/-- C8: for every string s that json.loads accepts, wrapping s in leading and
trailing triple-backtick markers (with or without the json tag) and then
applying the cleaning step parses to exactly the same value as parsing s
directly: the stripping is a left inverse of fence wrapping on parseable
strings. -/
theorem spec2proof_C8 :
    ∀ (tag : Bool) (s : List Char) (v : JVal),
      jsonLoads s = some v →
      jsonLoads (cleanResponse (wrap_fence tag s)) = some v := by
  intro tag s v h
  rw [cleanResponse_wrap tag h, jsonLoads_pyStrip, h]

/-- Witness for C8 at a concrete JSON object wrapped in a tagged fence. -/
theorem spec2proof_C8_witness :
    jsonLoads "\x7b\"a\": \"b\"\x7d".toList = some (.jobj [("a".toList, .jstr "b".toList)])
    ∧ jsonLoads (cleanResponse (wrap_fence true "\x7b\"a\": \"b\"\x7d".toList))
        = some (.jobj [("a".toList, .jstr "b".toList)]) :=
  ⟨rfl, spec2proof_C8 true "\x7b\"a\": \"b\"\x7d".toList _ rfl⟩
